import Mathlib

/-!
Verification development for the outdoor-autonomous-bot control core.

Shallow embedding of the Python sources into Lean 4:
  * floats are modelled as exact rationals,
  * machine integers / byte values are modelled as naturals with explicit
    masking where the source masks,
  * buffers are lists of naturals,
  * stateful classes become records with explicit state-passing functions.

Embedded modules:
  * robot/Raspberry-Pi-Pico-2/pid.py                  (PIDController)
  * robot/Raspberry-Pi-Pico-2/differential_drivetrain.py (DiffDriveController)
  * robot/Raspberry-Pi-Pico-2/encoder.py              (Encoder.update_rpm)
  * robot/Raspberry-Pi-Pico-2/pico_uart_comm.py       (UART framing)
  * pi3-rover-1/dashboard/backend/command_state.py    (CommandState)
  * pi3-rover-1/dashboard/backend/uart_bridge.py      (PiUartBridge.step)
-/

/-- Python int() conversion on a rational value: truncation toward zero. -/
def ratTrunc (x : ℚ) : ℤ :=
  if 0 ≤ x then ⌊x⌋ else ⌈x⌉

/-- Python round-half-to-even on a rational, to an integer. -/
def roundHalfEven (x : ℚ) : ℤ :=
  let f := ⌊x⌋
  let r := x - f
  if r < 1/2 then f
  else if 1/2 < r then f + 1
  else if f % 2 = 0 then f else f + 1

/-- Python round(x, 2): round to 2 decimal places, ties to even. -/
def pyRound2 (x : ℚ) : ℚ :=
  (roundHalfEven (100 * x) : ℚ) / 100

namespace PIDController

/-- State and configuration of pid.py PIDController. Floats are rationals;
duty_min / duty_max / last_output are Python ints. -/
structure State where
  Kp : ℚ
  Ki : ℚ
  Kd : ℚ
  Kff : ℚ
  offset : ℚ
  slewrate : Option ℚ
  duty_min : ℤ
  duty_max : ℤ
  integral_limit : Option ℚ
  integral : ℚ
  last_error : ℚ
  last_output : ℤ

/-- Constructor defaults of PIDController.__init__: internal state starts at
integral = 0, last_error = 0, last_output = duty_min. -/
def init (Kp Ki Kd Kff offset : ℚ) (slewrate : Option ℚ)
    (duty_min duty_max : ℤ) (integral_limit : Option ℚ) : State :=
  { Kp := Kp, Ki := Ki, Kd := Kd, Kff := Kff, offset := offset
    slewrate := slewrate, duty_min := duty_min, duty_max := duty_max
    integral_limit := integral_limit
    integral := 0, last_error := 0, last_output := duty_min }

/-- PIDController.compute(target, current, dt): returns the updated state and
the new duty. Mirrors pid.py line by line. -/
def compute (c : State) (target current dt : ℚ) : State × ℤ :=
  let error := target - current
  let integral0 := c.integral + error * dt
  let integral :=
    match c.integral_limit with
    | some lim =>
        if integral0 > lim then lim
        else if integral0 < -lim then -lim
        else integral0
    | none => integral0
  let derivative := if dt > 0 then (error - c.last_error) / dt else 0
  let p_out := c.Kp * error
  let i_out := c.Ki * integral
  let d_out := c.Kd * derivative
  let pid := p_out + i_out + d_out
  let ff := c.Kff * target + c.offset
  let raw := pid + ff
  let raw2 :=
    match c.slewrate with
    | some s =>
        let delta := raw - (c.last_output : ℚ)
        if delta > s then (c.last_output : ℚ) + s
        else if delta < -s then (c.last_output : ℚ) - s
        else raw
    | none => raw
  let out := ratTrunc (max (min raw2 (c.duty_max : ℚ)) (c.duty_min : ℚ))
  ({ c with integral := integral, last_error := error, last_output := out }, out)

/-- Successive outputs of compute over a list of (target, current, dt) inputs. -/
def runSeq (c : State) : List (ℚ × ℚ × ℚ) → List ℤ
  | [] => []
  | (t, cur, dt) :: rest =>
      let r := compute c t cur dt
      r.2 :: runSeq r.1 rest

end PIDController

section TruncLemmas

theorem ratTrunc_le_ceil (x : ℚ) : ratTrunc x ≤ ⌈x⌉ := by
  unfold ratTrunc
  split
  · exact le_trans (Int.floor_le_ceil x) le_rfl
  · exact le_rfl

theorem floor_le_ratTrunc (x : ℚ) : ⌊x⌋ ≤ ratTrunc x := by
  unfold ratTrunc
  split
  · exact le_rfl
  · exact Int.floor_le_ceil x

theorem ratTrunc_mem (x : ℚ) (a b : ℤ) (ha : (a : ℚ) ≤ x) (hb : x ≤ (b : ℚ)) :
    a ≤ ratTrunc x ∧ ratTrunc x ≤ b := by
  constructor
  · exact le_trans (by exact_mod_cast Int.le_floor.mpr ha) (floor_le_ratTrunc x)
  · exact le_trans (ratTrunc_le_ceil x) (Int.ceil_le.mpr hb)

/-- Truncation moves a value by strictly less than one, so the distance of the
truncated value from a reference integer grows by strictly less than one. -/
theorem abs_ratTrunc_sub_le (x : ℚ) (c : ℤ) (s : ℚ) (h : |x - (c : ℚ)| ≤ s) :
    |ratTrunc x - c| ≤ ⌈s⌉ := by
  have habs : |(ratTrunc x - c : ℤ)| < ⌈s⌉ + 1 := by
    have h1 : (c : ℚ) - s ≤ x := by
      have := abs_le.mp h
      linarith [this.1]
    have h2 : x ≤ (c : ℚ) + s := by
      have := abs_le.mp h
      linarith [this.2]
    have hlow : (c : ℚ) - s - 1 < (ratTrunc x : ℚ) := by
      have hf : x - 1 < (⌊x⌋ : ℚ) := by
        have := Int.sub_one_lt_floor x
        linarith
      have := floor_le_ratTrunc x
      have hcast : (⌊x⌋ : ℚ) ≤ (ratTrunc x : ℚ) := by exact_mod_cast this
      linarith
    have hhigh : (ratTrunc x : ℚ) < (c : ℚ) + s + 1 := by
      have hc : (⌈x⌉ : ℚ) < x + 1 := by
        have := Int.ceil_lt_add_one x
        linarith
      have := ratTrunc_le_ceil x
      have hcast : (ratTrunc x : ℚ) ≤ (⌈x⌉ : ℚ) := by exact_mod_cast this
      linarith
    have hsceil : s ≤ (⌈s⌉ : ℚ) := Int.le_ceil s
    rw [abs_lt]
    constructor
    · have : ((-(⌈s⌉ + 1) : ℤ) : ℚ) < (ratTrunc x - c : ℤ) := by
        push_cast
        linarith
      exact_mod_cast this
    · have : ((ratTrunc x - c : ℤ) : ℚ) < ((⌈s⌉ + 1 : ℤ) : ℚ) := by
        push_cast
        linarith
      exact_mod_cast this
  omega

end TruncLemmas

namespace PIDController

theorem compute_duty_min (c : State) (t cur dt : ℚ) :
    ((compute c t cur dt).1).duty_min = c.duty_min := rfl

theorem compute_duty_max (c : State) (t cur dt : ℚ) :
    ((compute c t cur dt).1).duty_max = c.duty_max := rfl

theorem compute_slewrate (c : State) (t cur dt : ℚ) :
    ((compute c t cur dt).1).slewrate = c.slewrate := rfl

theorem compute_last_output (c : State) (t cur dt : ℚ) :
    ((compute c t cur dt).1).last_output = (compute c t cur dt).2 := rfl

/-- The final clamp keeps every output of compute inside the configured duty
range, for every input including dt = 0 and dt < 0. -/
theorem compute_out_bounds (c : State) (t cur dt : ℚ)
    (h : c.duty_min ≤ c.duty_max) :
    c.duty_min ≤ (compute c t cur dt).2 ∧ (compute c t cur dt).2 ≤ c.duty_max := by
  unfold compute
  dsimp only
  apply ratTrunc_mem
  · exact le_max_right _ _
  · apply max_le
    · exact min_le_right _ _
    · exact_mod_cast h

/-- Generic fact about the tail of compute: slew-limiting any raw value
around the previous output, clamping to the duty range and truncating moves
the output by at most the ceiling of the slew rate. -/
theorem slew_clamp_trunc (raw : ℚ) (last m M : ℤ) (s : ℚ)
    (hs0 : 0 ≤ s) (hlo : m ≤ last) (hhi : last ≤ M) :
    |ratTrunc (max (min (if raw - (last : ℚ) > s then (last : ℚ) + s
        else if raw - (last : ℚ) < -s then (last : ℚ) - s else raw) (M : ℚ)) (m : ℚ))
      - last| ≤ ⌈s⌉ := by
  set r2 := (if raw - (last : ℚ) > s then (last : ℚ) + s
      else if raw - (last : ℚ) < -s then (last : ℚ) - s else raw) with hr2
  have hr2mem : (last : ℚ) - s ≤ r2 ∧ r2 ≤ (last : ℚ) + s := by
    rw [hr2]
    split
    · constructor <;> linarith
    · split
      · constructor <;> linarith
      · next h1 h2 =>
          push_neg at h1 h2
          constructor <;> linarith
  have hloq : (m : ℚ) ≤ (last : ℚ) := by exact_mod_cast hlo
  have hhiq : (last : ℚ) ≤ (M : ℚ) := by exact_mod_cast hhi
  apply abs_ratTrunc_sub_le
  rw [abs_le]
  constructor
  · have h1 : (last : ℚ) - s ≤ min r2 (M : ℚ) :=
      le_min hr2mem.1 (by linarith)
    have h2 : min r2 (M : ℚ) ≤ max (min r2 (M : ℚ)) (m : ℚ) := le_max_left _ _
    linarith
  · have h1 : max (min r2 (M : ℚ)) (m : ℚ) ≤ (last : ℚ) + s := by
      apply max_le
      · exact le_trans (min_le_left _ _) hr2mem.2
      · linarith
    linarith

/-- Single compute call with an active slew limit: the output moves from the
previous output by at most the ceiling of the slew rate. -/
theorem compute_slew_step (c : State) (t cur dt s : ℚ) (hs : c.slewrate = some s)
    (hs0 : 0 ≤ s) (hlo : c.duty_min ≤ c.last_output) (hhi : c.last_output ≤ c.duty_max) :
    |(compute c t cur dt).2 - c.last_output| ≤ ⌈s⌉ := by
  unfold compute
  rw [hs]
  dsimp only
  exact slew_clamp_trunc _ _ _ _ _ hs0 hlo hhi

end PIDController

namespace PIDController

/-- Along any sequence of compute calls with an active slew limit, each output
differs from the previous one by at most the ceiling of the slew rate. -/
theorem runSeq_chain (c : State) (inputs : List (ℚ × ℚ × ℚ)) (s : ℚ)
    (hs : c.slewrate = some s) (hs0 : 0 ≤ s)
    (hlo : c.duty_min ≤ c.last_output) (hhi : c.last_output ≤ c.duty_max) :
    List.Chain (fun a b : ℤ => |b - a| ≤ ⌈s⌉) c.last_output (runSeq c inputs) := by
  induction inputs generalizing c with
  | nil => exact List.Chain.nil
  | cons hd tl ih =>
      obtain ⟨t, cur, dt⟩ := hd
      simp only [runSeq]
      apply List.Chain.cons
      · exact compute_slew_step c t cur dt s hs hs0 hlo hhi
      · have hmm : c.duty_min ≤ c.duty_max := le_trans hlo hhi
        have hb := compute_out_bounds c t cur dt hmm
        rw [← compute_last_output]
        apply ih
        · rw [compute_slewrate]
          exact hs
        · rw [compute_duty_min, compute_last_output]
          exact hb.1
        · rw [compute_duty_max, compute_last_output]
          exact hb.2

end PIDController

/-- C3 (amended): for every PIDController with a non-None slewrate s >= 0 and
any sequence of compute(target, current, dt) calls started with
duty_min <= last_output <= duty_max, successive outputs differ by at most
ceil(s): the final int() truncation of the duty can add up to one extra count
on top of the slew limit, so the exact bound |duty[n] - duty[n-1]| <= s only
holds after rounding s up to the next integer. -/
theorem pid_slew_bounded_seq (c : PIDController.State) (inputs : List (ℚ × ℚ × ℚ))
    (s : ℚ) (hs : c.slewrate = some s) (hs0 : 0 ≤ s)
    (hlo : c.duty_min ≤ c.last_output) (hhi : c.last_output ≤ c.duty_max) :
    List.Chain (fun a b : ℤ => |b - a| ≤ ⌈s⌉) c.last_output (PIDController.runSeq c inputs) :=
  PIDController.runSeq_chain c inputs s hs hs0 hlo hhi

/-- Witness for pid_slew_bounded_seq at a concrete controller and input list. -/
theorem pid_slew_bounded_seq_witness :
    List.Chain (fun a b : ℤ => |b - a| ≤ ⌈(3/2 : ℚ)⌉)
      (PIDController.init 1 0 0 0 0 (some (3/2)) 0 65535 none).last_output
      (PIDController.runSeq (PIDController.init 1 0 0 0 0 (some (3/2)) 0 65535 none)
        [(10, 0, 0), (10, 0, 0), (-10, 0, 0)]) :=
  pid_slew_bounded_seq (PIDController.init 1 0 0 0 0 (some (3/2)) 0 65535 none)
    [(10, 0, 0), (10, 0, 0), (-10, 0, 0)] (3/2) rfl (by norm_num) (by decide) (by decide)

/-- C3 counterexample: with slewrate 1.5 and gains Kp = 1 (all others zero),
duty range [0, 65535], the outputs of three successive compute calls are
1, 2, 0: the last step changes the duty by 2, which exceeds the slewrate 1.5,
so the claimed invariant |duty[n] - duty[n-1]| <= slewrate is false. -/
theorem pid_slew_violation :
    PIDController.runSeq (PIDController.init 1 0 0 0 0 (some (3/2)) 0 65535 none)
      [(10, 0, 0), (10, 0, 0), (-10, 0, 0)] = [1, 2, 0] ∧
    ¬ ((|(0 : ℤ) - 2| : ℚ) ≤ 3/2) := by
  constructor
  · norm_num [PIDController.runSeq, PIDController.compute, PIDController.init,
      ratTrunc, max_def, min_def]
  · norm_num

/-- C10: PIDController.compute is total for every input, including dt = 0 and
dt < 0: whenever duty_min <= duty_max the returned duty is an integer inside
[duty_min, duty_max], and for dt <= 0 the derivative term is forced to zero
(the output does not depend on Kd at all). -/
theorem pid_compute_total_clamped (c : PIDController.State) (t cur dt kd' : ℚ)
    (h : c.duty_min ≤ c.duty_max) :
    (c.duty_min ≤ (PIDController.compute c t cur dt).2 ∧
      (PIDController.compute c t cur dt).2 ≤ c.duty_max) ∧
    (dt ≤ 0 → (PIDController.compute { c with Kd := kd' } t cur dt).2 =
      (PIDController.compute c t cur dt).2) := by
  constructor
  · exact PIDController.compute_out_bounds c t cur dt h
  · intro hdt
    have hngt : ¬ dt > 0 := not_lt.mpr hdt
    simp [PIDController.compute, if_neg hngt]

/-- Witness for pid_compute_total_clamped at a concrete controller and input. -/
theorem pid_compute_total_clamped_witness :
    ((PIDController.init 1 1 1 1 1 none 0 100 none).duty_min ≤
        (PIDController.compute (PIDController.init 1 1 1 1 1 none 0 100 none) 5 3 0).2 ∧
      (PIDController.compute (PIDController.init 1 1 1 1 1 none 0 100 none) 5 3 0).2 ≤
        (PIDController.init 1 1 1 1 1 none 0 100 none).duty_max) ∧
    ((0 : ℚ) ≤ 0 →
      (PIDController.compute { PIDController.init 1 1 1 1 1 none 0 100 none with Kd := 7 } 5 3 0).2 =
      (PIDController.compute (PIDController.init 1 1 1 1 1 none 0 100 none) 5 3 0).2) :=
  pid_compute_total_clamped (PIDController.init 1 1 1 1 1 none 0 100 none) 5 3 0 7 (by decide)

namespace DiffDrive

/-- Minimal motor interface as used by DiffDriveController via its
compatibility helpers: a target RPM setpoint, a brake latch, the RPM its
encoder reports, and a count of control-loop step calls. -/
structure MotorPort where
  target_rpm : ℚ
  braked : Bool
  measured_rpm : ℚ
  steps : ℕ

/-- State of differential_drivetrain.py DiffDriveController. Wall-clock
microsecond diagnostics (_last_loop_time_us) are omitted. -/
structure State where
  C : ℚ
  L : ℚ
  timeout_ms : Option ℤ
  linear : ℚ
  angular : ℚ
  last_cmd_time : ℤ
  left : MotorPort
  right : MotorPort
  last_target_rpm : ℚ × ℚ
  last_actual_rpm : ℚ × ℚ
  timeout_flag : Bool
  last_linear_vel : ℚ
  last_angular_vel : ℚ

/-- DiffDriveController.__init__: stores geometry and timeout without any
validation of the wheel circumference or separation. -/
def State.init (wheel_circumference wheel_separation : ℚ)
    (cmd_vel_timeout_ms : Option ℤ) (now_ms : ℤ) (left right : MotorPort) : State :=
  { C := wheel_circumference, L := wheel_separation,
    timeout_ms := cmd_vel_timeout_ms,
    linear := 0, angular := 0, last_cmd_time := now_ms,
    left := left, right := right,
    last_target_rpm := (0, 0), last_actual_rpm := (0, 0),
    timeout_flag := false, last_linear_vel := 0, last_angular_vel := 0 }

/-- DiffDriveController.update_cmd_vel. -/
def State.update_cmd_vel (st : State) (linear angular : ℚ) (now_ms : ℤ) : State :=
  { st with linear := linear, angular := angular, last_cmd_time := now_ms }

/-- DiffDriveController.compute_wheel_rpms: stores the full-precision RPM
pair in last_target_rpm and returns the pair rounded to 2 decimals. -/
def State.compute_wheel_rpms (st : State) : State × ℚ × ℚ :=
  let v_l := st.linear - st.angular * st.L * (1/2)
  let v_r := st.linear + st.angular * st.L * (1/2)
  let rpm_l := v_l * 60 / st.C
  let rpm_r := v_r * 60 / st.C
  ({ st with last_target_rpm := (rpm_l, rpm_r) }, pyRound2 rpm_l, pyRound2 rpm_r)

/-- DiffDriveController.stop_motors: zero both targets, advance each motor
loop once, optionally brake, and reset command telemetry. -/
def State.stop_motors (st : State) (brake : Bool) : State :=
  let l1 : MotorPort := { st.left with target_rpm := 0, steps := st.left.steps + 1 }
  let r1 : MotorPort := { st.right with target_rpm := 0, steps := st.right.steps + 1 }
  let l2 := if brake then { l1 with braked := true } else l1
  let r2 := if brake then { r1 with braked := true } else r1
  { st with
    left := l2, right := r2,
    last_target_rpm := (0, 0), last_actual_rpm := (0, 0),
    last_linear_vel := 0, last_angular_vel := 0 }

/-- DiffDriveController._rpm_to_linear. -/
def State.rpm_to_linear (st : State) (rpm : ℚ) : ℚ :=
  rpm * st.C / 60

/-- DiffDriveController._compute_body_velocities. -/
def State.compute_body_velocities (st : State) (l_rpm r_rpm : ℚ) : ℚ × ℚ :=
  let v_l := st.rpm_to_linear l_rpm
  let v_r := st.rpm_to_linear r_rpm
  (1/2 * (v_l + v_r), if st.L ≠ 0 then (v_r - v_l) / st.L else 0)

/-- DiffDriveController.update_motors: enforce the cmd_vel timeout, else
compute and push wheel RPM setpoints, step the motors and read back
telemetry. -/
def State.update_motors (st : State) (now_ms : ℤ) : State :=
  let timedOut : Bool :=
    match st.timeout_ms with
    | some t => decide (now_ms - st.last_cmd_time > t)
    | none => false
  if timedOut then
    { st.stop_motors true with timeout_flag := true }
  else
    let st1 := { st with timeout_flag := false }
    let r := st1.compute_wheel_rpms
    let st2 := r.1
    let st3 := { st2 with
      left := { st2.left with target_rpm := r.2.1, steps := st2.left.steps + 1 },
      right := { st2.right with target_rpm := r.2.2, steps := st2.right.steps + 1 } }
    let l_rpm := st3.left.measured_rpm
    let r_rpm := st3.right.measured_rpm
    let bv := st3.compute_body_velocities l_rpm r_rpm
    { st3 with
      last_actual_rpm := (l_rpm, r_rpm),
      last_linear_vel := bv.1, last_angular_vel := bv.2 }

end DiffDrive

/-- C2: with a configured (non-None) cmd_vel timeout, if update_cmd_vel has
not been called for longer than the timeout then update_motors sets the
timeout flag, drives both motor targets to 0 with braking, and resets the
target-RPM telemetry to (0, 0) instead of computing fresh setpoints,
regardless of the stored (linear, angular) command. -/
theorem drivetrain_timeout_failsafe (st : DiffDrive.State) (now_ms t : ℤ)
    (ht : st.timeout_ms = some t) (hstale : now_ms - st.last_cmd_time > t) :
    (st.update_motors now_ms).timeout_flag = true ∧
    (st.update_motors now_ms).left.target_rpm = 0 ∧
    (st.update_motors now_ms).right.target_rpm = 0 ∧
    (st.update_motors now_ms).left.braked = true ∧
    (st.update_motors now_ms).right.braked = true ∧
    (st.update_motors now_ms).last_target_rpm = (0, 0) ∧
    (st.update_motors now_ms).last_actual_rpm = (0, 0) := by
  unfold DiffDrive.State.update_motors
  rw [ht]
  simp [hstale, DiffDrive.State.stop_motors]

/-- Witness for drivetrain_timeout_failsafe: a controller built at time 0
with a 200 ms timeout, commanded (2, 3) at time 0 and updated at time 300. -/
theorem drivetrain_timeout_failsafe_witness :
    ((DiffDrive.State.update_cmd_vel
        (DiffDrive.State.init 1 (1/2) (some 200) 0 ⟨0, false, 0, 0⟩ ⟨0, false, 0, 0⟩)
        2 3 0).update_motors 300).timeout_flag = true ∧
    ((DiffDrive.State.update_cmd_vel
        (DiffDrive.State.init 1 (1/2) (some 200) 0 ⟨0, false, 0, 0⟩ ⟨0, false, 0, 0⟩)
        2 3 0).update_motors 300).left.target_rpm = 0 ∧
    ((DiffDrive.State.update_cmd_vel
        (DiffDrive.State.init 1 (1/2) (some 200) 0 ⟨0, false, 0, 0⟩ ⟨0, false, 0, 0⟩)
        2 3 0).update_motors 300).right.target_rpm = 0 ∧
    ((DiffDrive.State.update_cmd_vel
        (DiffDrive.State.init 1 (1/2) (some 200) 0 ⟨0, false, 0, 0⟩ ⟨0, false, 0, 0⟩)
        2 3 0).update_motors 300).left.braked = true ∧
    ((DiffDrive.State.update_cmd_vel
        (DiffDrive.State.init 1 (1/2) (some 200) 0 ⟨0, false, 0, 0⟩ ⟨0, false, 0, 0⟩)
        2 3 0).update_motors 300).right.braked = true ∧
    ((DiffDrive.State.update_cmd_vel
        (DiffDrive.State.init 1 (1/2) (some 200) 0 ⟨0, false, 0, 0⟩ ⟨0, false, 0, 0⟩)
        2 3 0).update_motors 300).last_target_rpm = (0, 0) ∧
    ((DiffDrive.State.update_cmd_vel
        (DiffDrive.State.init 1 (1/2) (some 200) 0 ⟨0, false, 0, 0⟩ ⟨0, false, 0, 0⟩)
        2 3 0).update_motors 300).last_actual_rpm = (0, 0) :=
  drivetrain_timeout_failsafe
    (DiffDrive.State.update_cmd_vel
      (DiffDrive.State.init 1 (1/2) (some 200) 0 ⟨0, false, 0, 0⟩ ⟨0, false, 0, 0⟩) 2 3 0)
    300 200 rfl (by decide)

/-- C6: for wheel circumference C > 0 and separation L > 0, the inverse
kinematics of _compute_body_velocities applied to the full-precision wheel
RPM pair produced by compute_wheel_rpms recovers the commanded (v, omega)
exactly (the embedding uses exact rational arithmetic). -/
theorem kinematics_round_trip (st : DiffDrive.State) (hC : 0 < st.C) (hL : 0 < st.L) :
    st.compute_body_velocities st.compute_wheel_rpms.1.last_target_rpm.1
      st.compute_wheel_rpms.1.last_target_rpm.2 = (st.linear, st.angular) := by
  have hC' : st.C ≠ 0 := ne_of_gt hC
  have hL' : st.L ≠ 0 := ne_of_gt hL
  simp only [DiffDrive.State.compute_wheel_rpms, DiffDrive.State.compute_body_velocities,
    DiffDrive.State.rpm_to_linear]
  rw [if_pos hL']
  simp only [Prod.mk.injEq]
  constructor
  · field_simp
    ring
  · field_simp
    ring

/-- Witness for kinematics_round_trip: C = 1, L = 1/2, command (3, 4). -/
theorem kinematics_round_trip_witness :
    (DiffDrive.State.update_cmd_vel
        (DiffDrive.State.init 1 (1/2) none 0 ⟨0, false, 0, 0⟩ ⟨0, false, 0, 0⟩) 3 4 0
      ).compute_body_velocities
      (DiffDrive.State.update_cmd_vel
        (DiffDrive.State.init 1 (1/2) none 0 ⟨0, false, 0, 0⟩ ⟨0, false, 0, 0⟩) 3 4 0
      ).compute_wheel_rpms.1.last_target_rpm.1
      (DiffDrive.State.update_cmd_vel
        (DiffDrive.State.init 1 (1/2) none 0 ⟨0, false, 0, 0⟩ ⟨0, false, 0, 0⟩) 3 4 0
      ).compute_wheel_rpms.1.last_target_rpm.2 =
    ((DiffDrive.State.update_cmd_vel
        (DiffDrive.State.init 1 (1/2) none 0 ⟨0, false, 0, 0⟩ ⟨0, false, 0, 0⟩) 3 4 0).linear,
     (DiffDrive.State.update_cmd_vel
        (DiffDrive.State.init 1 (1/2) none 0 ⟨0, false, 0, 0⟩ ⟨0, false, 0, 0⟩) 3 4 0).angular) :=
  kinematics_round_trip
    (DiffDrive.State.update_cmd_vel
      (DiffDrive.State.init 1 (1/2) none 0 ⟨0, false, 0, 0⟩ ⟨0, false, 0, 0⟩) 3 4 0)
    (by norm_num [DiffDrive.State.init, DiffDrive.State.update_cmd_vel])
    (by norm_num [DiffDrive.State.init, DiffDrive.State.update_cmd_vel])

/-- C7: the DiffDriveController constructor performs no validation of the
wheel circumference: a configuration with wheel_circumference = 0 (or any
non-positive value) is accepted and stored unchanged, so compute_wheel_rpms
later divides by the non-positive C instead of the configuration being
rejected. -/
theorem drivetrain_init_accepts_nonpositive_circumference :
    (DiffDrive.State.init 0 (1/2) (some 200) 0 ⟨0, false, 0, 0⟩ ⟨0, false, 0, 0⟩).C = 0 ∧
    (DiffDrive.State.init (-1) (1/2) (some 200) 0 ⟨0, false, 0, 0⟩ ⟨0, false, 0, 0⟩).C = -1 :=
  ⟨rfl, rfl⟩

namespace CommandState

/-- The idle / teleop / auto control modes of command_state.py. -/
inductive ControlMode
  | idle
  | teleop
  | auto
  deriving DecidableEq

/-- Per-source command state (command_state.py SourceState); times are
monotonic-clock seconds modelled as rationals. -/
structure SourceState where
  v_cmd : ℚ
  w_cmd : ℚ
  last_update_ts : ℚ
  active : Bool

/-- Central command / mode manager (command_state.py CommandState); the
telemetry block and the lock are orthogonal to mode arbitration and omitted. -/
structure State where
  teleop : SourceState
  auto : SourceState
  mode : ControlMode
  teleop_timeout : ℚ
  auto_timeout : ℚ

/-- Dataclass defaults: both sources zeroed and inactive at timestamp 0,
mode IDLE, teleop timeout 0.5 s, auto timeout 1.0 s. -/
def State.initDefault : State :=
  { teleop := { v_cmd := 0, w_cmd := 0, last_update_ts := 0, active := false },
    auto := { v_cmd := 0, w_cmd := 0, last_update_ts := 0, active := false },
    mode := ControlMode.idle,
    teleop_timeout := 1/2, auto_timeout := 1 }

/-- CommandState._recompute_mode_locked: apply timeouts (active = age <
timeout, strict) and arbitrate teleop > auto > idle. -/
def State.recompute_mode_locked (st : State) (now : ℚ) : State :=
  let teleop_active := decide (now - st.teleop.last_update_ts < st.teleop_timeout)
  let auto_active := decide (now - st.auto.last_update_ts < st.auto_timeout)
  { st with
    teleop := { st.teleop with active := teleop_active },
    auto := { st.auto with active := auto_active },
    mode := if teleop_active then ControlMode.teleop
      else if auto_active then ControlMode.auto
      else ControlMode.idle }

/-- CommandState.update_teleop. -/
def State.update_teleop (st : State) (v_cmd w_cmd now : ℚ) : State :=
  let st1 := { st with
    teleop := { v_cmd := v_cmd, w_cmd := w_cmd, last_update_ts := now, active := true } }
  st1.recompute_mode_locked now

/-- CommandState.update_auto. -/
def State.update_auto (st : State) (v_cmd w_cmd now : ℚ) : State :=
  let st1 := { st with
    auto := { v_cmd := v_cmd, w_cmd := w_cmd, last_update_ts := now, active := true } }
  st1.recompute_mode_locked now

/-- CommandState.get_current_command: recompute the mode under the current
time, then return the selected source's command, or (0, 0, IDLE). -/
def State.get_current_command (st : State) (now : ℚ) :
    State × (ℚ × ℚ × ControlMode) :=
  let st1 := st.recompute_mode_locked now
  match st1.mode with
  | ControlMode.teleop => (st1, (st1.teleop.v_cmd, st1.teleop.w_cmd, ControlMode.teleop))
  | ControlMode.auto => (st1, (st1.auto.v_cmd, st1.auto.w_cmd, ControlMode.auto))
  | ControlMode.idle => (st1, (0, 0, ControlMode.idle))

/-- Helper: closed-form value of get_current_command. -/
theorem get_current_command_eq (st : State) (now : ℚ) :
    (st.get_current_command now).2 =
      if now - st.teleop.last_update_ts < st.teleop_timeout then
        (st.teleop.v_cmd, st.teleop.w_cmd, ControlMode.teleop)
      else if now - st.auto.last_update_ts < st.auto_timeout then
        (st.auto.v_cmd, st.auto.w_cmd, ControlMode.auto)
      else (0, 0, ControlMode.idle) := by
  unfold State.get_current_command State.recompute_mode_locked
  by_cases h1 : now - st.teleop.last_update_ts < st.teleop_timeout <;>
    by_cases h2 : now - st.auto.last_update_ts < st.auto_timeout <;>
      simp [h1, h2]

end CommandState

/-- C1: get_current_command re-evaluates source activity as age < timeout on
every call and returns the highest-priority active source (teleop before
auto), else (0, 0, IDLE); in particular, with both sources updated at t = 0
under the default timeouts (teleop 0.5 s, auto 1.0 s), the call at t = 0.4
returns the teleop command with mode TELEOP, at t = 0.6 the auto command
with mode AUTO, and at t = 1.1 the idle triple (0, 0, IDLE). -/
theorem arbiter_priority_resolution :
    (∀ (st : CommandState.State) (now : ℚ),
      (st.get_current_command now).2 =
        if now - st.teleop.last_update_ts < st.teleop_timeout then
          (st.teleop.v_cmd, st.teleop.w_cmd, CommandState.ControlMode.teleop)
        else if now - st.auto.last_update_ts < st.auto_timeout then
          (st.auto.v_cmd, st.auto.w_cmd, CommandState.ControlMode.auto)
        else (0, 0, CommandState.ControlMode.idle)) ∧
    (∀ vt wt va wa : ℚ,
      (((CommandState.State.initDefault.update_teleop vt wt 0).update_auto va wa 0
          ).get_current_command (2/5)).2 =
        (vt, wt, CommandState.ControlMode.teleop) ∧
      (((CommandState.State.initDefault.update_teleop vt wt 0).update_auto va wa 0
          ).get_current_command (3/5)).2 =
        (va, wa, CommandState.ControlMode.auto) ∧
      (((CommandState.State.initDefault.update_teleop vt wt 0).update_auto va wa 0
          ).get_current_command (11/10)).2 =
        (0, 0, CommandState.ControlMode.idle)) := by
  constructor
  · exact CommandState.get_current_command_eq
  · intro vt wt va wa
    refine ⟨?_, ?_, ?_⟩ <;>
      · rw [CommandState.get_current_command_eq]
        norm_num [CommandState.State.initDefault, CommandState.State.update_teleop,
          CommandState.State.update_auto, CommandState.State.recompute_mode_locked]

namespace Encoder

/-- State of encoder.py Encoder relevant to update_rpm. GPIO wiring, the IRQ
handler (which only mutates count) and the wall-clock execution-time
diagnostic are omitted; samples are (timestamp_ms, delta_ticks, dt_ms). -/
structure State where
  count : ℤ
  ticks_per_rev : ℚ
  window_ms : ℤ
  samples : List (ℤ × ℤ × ℤ)
  last_time : ℤ
  last_count : ℤ
  rpm : ℚ
  last_update_ms : ℤ
  last_delta_ticks : ℤ
  no_pulses_window : Bool

/-- The Encoder.rpm property: round(abs(_rpm), 2). -/
def State.rpm_view (e : State) : ℚ :=
  pyRound2 |e.rpm|

/-- Encoder.update_rpm(now_ms): early-return the cached value when called
within the 5 ms minimum interval, otherwise append a sample, bound the
window to 64 samples, evict samples older than window_ms, and recompute the
smoothed RPM. -/
def State.update_rpm (e : State) (now_ms : ℤ) : State × ℚ :=
  let dt_ms := now_ms - e.last_time
  if dt_ms < 5 then (e, e.rpm_view)
  else
    let curr_count := e.count
    let delta := curr_count - e.last_count
    let samples1 := e.samples ++ [(now_ms, delta, dt_ms)]
    let samples2 := if samples1.length > 64 then samples1.drop 1 else samples1
    let samples3 := samples2.dropWhile (fun s => decide (now_ms - s.1 > e.window_ms))
    let total_ticks := (samples3.map (fun s => s.2.1)).sum
    let total_time_ms := (samples3.map (fun s => s.2.2)).sum
    let rpm :=
      if total_time_ms > 0 then
        let revs := (total_ticks : ℚ) / e.ticks_per_rev
        let mins := ((total_time_ms : ℚ) / 1000) / 60
        if mins > 0 then revs / mins else 0
      else 0
    let e1 := { e with
      samples := samples3, last_count := curr_count, last_time := now_ms,
      rpm := rpm, no_pulses_window := decide (total_ticks = 0),
      last_update_ms := now_ms, last_delta_ticks := delta }
    (e1, e1.rpm_view)

end Encoder

/-- C8: a call to update_rpm made less than 5 ms after the previous update
returns the cached rounded RPM and leaves the whole encoder state unchanged:
no sample is appended or evicted and the smoothed RPM and the
last-count/last-time baseline are untouched. -/
theorem encoder_min_interval_caches (e : Encoder.State) (now_ms : ℤ)
    (h : now_ms - e.last_time < 5) :
    e.update_rpm now_ms = (e, pyRound2 |e.rpm|) := by
  unfold Encoder.State.update_rpm
  rw [if_pos h]
  rfl

/-- Witness for encoder_min_interval_caches at a concrete encoder state. -/
theorem encoder_min_interval_caches_witness :
    Encoder.State.update_rpm ⟨7, 330, 100, [(0, 3, 10)], 20, 7, 54, 20, 3, false⟩ 23 =
      (⟨7, 330, 100, [(0, 3, 10)], 20, 7, 54, 20, 3, false⟩, pyRound2 |(54 : ℚ)|) :=
  encoder_min_interval_caches ⟨7, 330, 100, [(0, 3, 10)], 20, 7, 54, 20, 3, false⟩ 23
    (by decide)

namespace PiUartBridge

/-- Configuration and link state of uart_bridge.py PiUartBridge relevant to
step. The pyserial handle is abstracted to a connected flag (when the port
is down, _ensure_serial returns None and step sends nothing); the telemetry
read path performs no sends and is omitted. -/
structure State where
  heartbeat_s : ℚ
  max_linear_mps : ℚ
  max_angular_rps : ℚ
  connected : Bool
  last_send_ts : ℚ
  last_sent : Option (ℚ × ℚ)

/-- PiUartBridge._clamp. -/
def State.clamp (b : State) (v w : ℚ) : ℚ × ℚ :=
  (max (-b.max_linear_mps) (min b.max_linear_mps v),
   max (-b.max_angular_rps) (min b.max_angular_rps w))

/-- PiUartBridge.step: clamp the arbiter command, decide whether to send
(first send, change beyond 1e-4, or heartbeat elapsed) and return the
velocity pair carried by the frame that _send_velocity encodes, if any. -/
def State.step (b : State) (now : ℚ) (cmd : ℚ × ℚ × CommandState.ControlMode) :
    State × Option (ℚ × ℚ) :=
  if b.connected = false then (b, none)
  else
    let c := b.clamp cmd.1 cmd.2.1
    let should_send : Bool :=
      match b.last_sent with
      | none => true
      | some last =>
          if |c.1 - last.1| > 1/10000 ∨ |c.2 - last.2| > 1/10000 then true
          else if now - b.last_send_ts ≥ b.heartbeat_s then true
          else false
    if should_send then
      ({ b with last_send_ts := now, last_sent := some c }, some c)
    else (b, none)

end PiUartBridge

/-- C9: every velocity pair that step hands to _send_velocity is clamped to
the construction-time safety limits: if step sends some (v, w) then
|v| <= max_linear_mps and |w| <= max_angular_rps, however large the command
returned by the arbiter was. -/
theorem bridge_sends_clamped (b : PiUartBridge.State) (now : ℚ)
    (cmd : ℚ × ℚ × CommandState.ControlMode) (v w : ℚ)
    (hL : 0 ≤ b.max_linear_mps) (hA : 0 ≤ b.max_angular_rps)
    (hsent : (b.step now cmd).2 = some (v, w)) :
    (-b.max_linear_mps ≤ v ∧ v ≤ b.max_linear_mps) ∧
    (-b.max_angular_rps ≤ w ∧ w ≤ b.max_angular_rps) := by
  have goal_of : b.clamp cmd.1 cmd.2.1 = (v, w) →
      (-b.max_linear_mps ≤ v ∧ v ≤ b.max_linear_mps) ∧
      (-b.max_angular_rps ≤ w ∧ w ≤ b.max_angular_rps) := by
    intro hc
    simp only [PiUartBridge.State.clamp, Prod.mk.injEq] at hc
    obtain ⟨hv, hw⟩ := hc
    subst hv
    subst hw
    exact ⟨⟨le_max_left _ _, max_le (by linarith) (min_le_left _ _)⟩,
      ⟨le_max_left _ _, max_le (by linarith) (min_le_left _ _)⟩⟩
  unfold PiUartBridge.State.step at hsent
  simp only [apply_ite Prod.snd] at hsent
  split at hsent
  · exact absurd hsent (by simp)
  · rcases hls : b.last_sent with _ | last <;> rw [hls] at hsent <;>
      dsimp only at hsent
    · rw [if_pos rfl] at hsent
      exact goal_of (by injection hsent)
    · by_cases h1 : |(b.clamp cmd.1 cmd.2.1).1 - last.1| > 1/10000 ∨
          |(b.clamp cmd.1 cmd.2.1).2 - last.2| > 1/10000
      · rw [if_pos h1, if_pos rfl] at hsent
        exact goal_of (by injection hsent)
      · rw [if_neg h1] at hsent
        by_cases h2 : now - b.last_send_ts ≥ b.heartbeat_s
        · rw [if_pos h2, if_pos rfl] at hsent
          exact goal_of (by injection hsent)
        · rw [if_neg h2, if_neg (by simp)] at hsent
          exact absurd hsent (by simp)

/-- Witness for bridge_sends_clamped: a connected bridge with limits
(0.6, 2.0) receiving the oversized arbiter command (100, -50) sends exactly
the clamped pair (0.6, -2). -/
theorem bridge_sends_clamped_witness :
    (-(3/5 : ℚ) ≤ (3/5 : ℚ) ∧ (3/5 : ℚ) ≤ (3/5 : ℚ)) ∧
    (-(2 : ℚ) ≤ (-2 : ℚ) ∧ (-2 : ℚ) ≤ (2 : ℚ)) :=
  bridge_sends_clamped ⟨1/20, 3/5, 2, true, 0, none⟩ 1
    (100, -50, CommandState.ControlMode.idle) (3/5) (-2)
    (by norm_num) (by norm_num)
    (by norm_num [PiUartBridge.State.step, PiUartBridge.State.clamp, max_def, min_def])

namespace PicoLink

/-- UART framing start bytes of pico_uart_comm.py PicoLowLevelLink. -/
def START1 : ℕ := 0xAA

/-- Second start byte. -/
def START2 : ℕ := 0x55

/-- PicoLowLevelLink._calc_checksum: running sum masked to a byte. -/
def calcChecksum (data : List ℕ) : ℕ :=
  data.foldl (fun s b => (s + b) &&& 0xFF) 0

/-- PicoLowLevelLink._build_packet: START1 START2 MSG_ID LEN_HI LEN_LO
PAYLOAD... CHECKSUM with a big-endian 16-bit length. -/
def buildPacket (msg_id : ℕ) (payload : List ℕ) : List ℕ :=
  let length := payload.length
  let len_hi := (length >>> 8) &&& 0xFF
  let len_lo := length &&& 0xFF
  let header := [START1, START2, msg_id, len_hi, len_lo]
  let chk := calcChecksum (header.drop 2 ++ payload)
  header ++ payload ++ [chk]

/-- The start-byte hunt loop at the top of _try_extract_packet: pop bytes
until the buffer begins with the start pair or is shorter than two bytes. -/
def hunt : List ℕ → List ℕ
  | a :: b :: rest =>
      if a = START1 ∧ b = START2 then a :: b :: rest
      else hunt (b :: rest)
  | l => l

/-- PicoLowLevelLink._try_extract_packet: hunt for the start bytes, wait for
a complete frame, slice it off the buffer, verify the checksum and return
(msg_id, payload) or none together with the buffer left behind (the source
mutates self._rx_buf in place). -/
def tryExtract (buf : List ℕ) : Option (ℕ × List ℕ) × List ℕ :=
  let b := hunt buf
  if b.length < 5 then (none, b)
  else
    let msg_id := b.getD 2 0
    let length := (b.getD 3 0) <<< 8 ||| (b.getD 4 0)
    let total_len := 2 + 1 + 2 + length + 1
    if b.length < total_len then (none, b)
    else
      let frame := b.take total_len
      let rest := b.drop total_len
      let payload := (frame.drop 5).dropLast
      let chk := frame.getLastD 0
      let calcv := calcChecksum ((frame.drop 2).dropLast)
      if chk ≠ calcv then (none, rest)
      else (some (msg_id, payload), rest)

theorem hunt_start (l : List ℕ) : hunt (START1 :: START2 :: l) = START1 :: START2 :: l := by
  simp [hunt]

/-- Frame slicing: on a buffer that starts with a syntactically complete
frame, the extractor checks exactly the frame's checksum byte against the
checksum of its id/length/payload region and consumes the frame. -/
theorem tryExtract_frame (id hi lo chk : ℕ) (p rest : List ℕ)
    (hL : hi <<< 8 ||| lo = p.length) :
    tryExtract (START1 :: START2 :: id :: hi :: lo :: (p ++ chk :: rest)) =
      if chk ≠ calcChecksum (id :: hi :: lo :: p) then (none, rest)
      else (some (id, p), rest) := by
  have hB : START1 :: START2 :: id :: hi :: lo :: (p ++ chk :: rest) =
      (START1 :: START2 :: id :: hi :: lo :: (p ++ [chk])) ++ rest := by
    simp
  unfold tryExtract
  rw [hunt_start]
  have hlen : (START1 :: START2 :: id :: hi :: lo :: (p ++ chk :: rest)).length =
      p.length + 6 + rest.length := by
    simp
    omega
  rw [if_neg (by omega)]
  have hgetD2 : (START1 :: START2 :: id :: hi :: lo :: (p ++ chk :: rest)).getD 2 0 = id := rfl
  have hgetD3 : (START1 :: START2 :: id :: hi :: lo :: (p ++ chk :: rest)).getD 3 0 = hi := rfl
  have hgetD4 : (START1 :: START2 :: id :: hi :: lo :: (p ++ chk :: rest)).getD 4 0 = lo := rfl
  rw [hgetD2, hgetD3, hgetD4, hL]
  rw [if_neg (by omega)]
  have hFlen : (START1 :: START2 :: id :: hi :: lo :: (p ++ [chk])).length =
      2 + 1 + 2 + p.length + 1 := by
    simp
    omega
  rw [hB, List.take_left' hFlen, List.drop_left' hFlen]
  dsimp only
  have hdrop5 : (START1 :: START2 :: id :: hi :: lo :: (p ++ [chk])).drop 5 = p ++ [chk] := rfl
  have hdrop2 : (START1 :: START2 :: id :: hi :: lo :: (p ++ [chk])).drop 2 =
      (id :: hi :: lo :: p) ++ [chk] := by simp
  rw [hdrop5, hdrop2, List.dropLast_concat, List.dropLast_concat]
  have hlast : (START1 :: START2 :: id :: hi :: lo :: (p ++ [chk])).getLastD 0 = chk := by
    have h2 : START1 :: START2 :: id :: hi :: lo :: (p ++ [chk]) =
        (START1 :: START2 :: id :: hi :: lo :: p) ++ [chk] := by simp
    rw [h2, List.getLastD_concat]
  rw [hlast]


theorem and255_eq_mod (x : ℕ) : x &&& 255 = x % 256 := by
  have h := Nat.and_pow_two_sub_one_eq_mod x 8
  norm_num at h
  exact h

theorem decode_len (L : ℕ) (h : L < 65536) :
    ((L >>> 8) &&& 255) <<< 8 ||| (L &&& 255) = L := by
  rw [and255_eq_mod, and255_eq_mod, Nat.shiftRight_eq_div_pow, Nat.shiftLeft_eq]
  norm_num
  rw [show (256:ℕ) = 2 ^ 8 by norm_num, Nat.mul_comm]
  rw [← Nat.mul_add_lt_is_or (Nat.mod_lt _ (by positivity)) (L / 2 ^ 8 % 2 ^ 8)]
  omega

theorem buildPacket_shape (id : ℕ) (p : List ℕ) :
    buildPacket id p = START1 :: START2 :: id :: ((p.length >>> 8) &&& 255) ::
      (p.length &&& 255) ::
      (p ++ [calcChecksum (id :: ((p.length >>> 8) &&& 255) ::
        (p.length &&& 255) :: p)]) := by
  simp [buildPacket]

theorem tryExtract_buildPacket (id : ℕ) (p rest : List ℕ) (h : p.length < 65536) :
    tryExtract (buildPacket id p ++ rest) = (some (id, p), rest) := by
  rw [buildPacket_shape]
  have hshape : (START1 :: START2 :: id :: ((p.length >>> 8) &&& 255) ::
      (p.length &&& 255) ::
      (p ++ [calcChecksum (id :: ((p.length >>> 8) &&& 255) ::
        (p.length &&& 255) :: p)])) ++ rest =
      START1 :: START2 :: id :: ((p.length >>> 8) &&& 255) ::
      (p.length &&& 255) ::
      (p ++ calcChecksum (id :: ((p.length >>> 8) &&& 255) ::
        (p.length &&& 255) :: p) :: rest) := by
    simp
  rw [hshape, tryExtract_frame _ _ _ _ _ _ (decode_len p.length h)]
  rw [if_neg (by simp)]


theorem foldl_mask_eq_sum_mod (l : List ℕ) (s : ℕ) (hs : s < 256) :
    l.foldl (fun a b => (a + b) &&& 0xFF) s = (s + l.sum) % 256 := by
  induction l generalizing s with
  | nil => simp [Nat.mod_eq_of_lt hs]
  | cons a t ih =>
      simp only [List.foldl_cons, List.sum_cons]
      rw [and255_eq_mod]
      rw [ih _ (Nat.mod_lt _ (by norm_num))]
      rw [Nat.mod_add_mod]
      ring_nf

theorem calcChecksum_eq_sum_mod (l : List ℕ) : calcChecksum l = l.sum % 256 := by
  unfold calcChecksum
  rw [foldl_mask_eq_sum_mod l 0 (by norm_num)]
  simp

theorem calcChecksum_lt (l : List ℕ) : calcChecksum l < 256 := by
  rw [calcChecksum_eq_sum_mod]
  exact Nat.mod_lt _ (by norm_num)

theorem sum_set_mod_ne (l : List ℕ) (j : ℕ) (hj : j < l.length) (b' : ℕ)
    (hb : b' % 256 ≠ l.getD j 0 % 256) :
    (l.set j b').sum % 256 ≠ l.sum % 256 := by
  induction l generalizing j with
  | nil => simp at hj
  | cons a t ih =>
      cases j with
      | zero =>
          simp only [List.set_cons_zero, List.sum_cons, List.getD_cons_zero] at hb ⊢
          intro hcontra
          exact hb (Nat.ModEq.add_right_cancel' t.sum hcontra)
      | succ j =>
          simp only [List.set_cons_succ, List.sum_cons, List.getD_cons_succ] at hb ⊢
          intro hcontra
          exact ih j (by simpa using hj) hb (Nat.ModEq.add_left_cancel' a hcontra)

theorem calcChecksum_set_ne (l : List ℕ) (j : ℕ) (hj : j < l.length) (b' : ℕ)
    (hb : b' % 256 ≠ l.getD j 0 % 256) :
    calcChecksum (l.set j b') ≠ calcChecksum l := by
  rw [calcChecksum_eq_sum_mod, calcChecksum_eq_sum_mod]
  exact sum_set_mod_ne l j hj b' hb


theorem tryExtract_flip (id : ℕ) (p rest : List ℕ) (i b' : ℕ)
    (hlen : p.length < 65536)
    (hpos : i = 2 ∨ (5 ≤ i ∧ i < 6 + p.length))
    (hb : b' % 256 ≠ (buildPacket id p).getD i 0 % 256) :
    tryExtract ((buildPacket id p).set i b' ++ rest) = (none, rest) := by
  have hL := decode_len p.length hlen
  rw [buildPacket_shape] at hb ⊢
  set hi := (p.length >>> 8) &&& 255 with hhi
  set lo := p.length &&& 255 with hlo
  set chk := calcChecksum (id :: hi :: lo :: p) with hchk
  rcases hpos with hi2 | ⟨hge, hlt⟩
  · subst hi2
    have hset : (START1 :: START2 :: id :: hi :: lo :: (p ++ [chk])).set 2 b' =
        START1 :: START2 :: b' :: hi :: lo :: (p ++ [chk]) := rfl
    have hgd : (START1 :: START2 :: id :: hi :: lo :: (p ++ [chk])).getD 2 0 = id := rfl
    rw [hgd] at hb
    rw [hset]
    have hshape : START1 :: START2 :: b' :: hi :: lo :: (p ++ [chk]) ++ rest =
        START1 :: START2 :: b' :: hi :: lo :: (p ++ chk :: rest) := by simp
    rw [hshape, tryExtract_frame _ _ _ _ _ _ hL]
    rw [if_pos ?_]
    have hne : calcChecksum ((id :: hi :: lo :: p).set 0 b') ≠
        calcChecksum (id :: hi :: lo :: p) :=
      calcChecksum_set_ne _ 0 (by simp) b' (by simpa using hb)
    exact fun hcontra => hne (by simpa using hcontra.symm)
  · obtain ⟨j, rfl⟩ : ∃ j, i = j + 5 := ⟨i - 5, by omega⟩
    have hjlt : j < p.length + 1 := by omega
    have hset : (START1 :: START2 :: id :: hi :: lo :: (p ++ [chk])).set (j + 5) b' =
        START1 :: START2 :: id :: hi :: lo :: ((p ++ [chk]).set j b') := rfl
    have hgd : (START1 :: START2 :: id :: hi :: lo :: (p ++ [chk])).getD (j + 5) 0 =
        (p ++ [chk]).getD j 0 := rfl
    rw [hgd] at hb
    rw [hset]
    rcases Nat.lt_or_ge j p.length with hjp | hjp
    · -- payload byte flip
      have hsetp : (p ++ [chk]).set j b' = p.set j b' ++ [chk] :=
        List.set_append_left j b' hjp
      have hgdp : (p ++ [chk]).getD j 0 = p.getD j 0 :=
        List.getD_append p [chk] 0 j hjp
      rw [hgdp] at hb
      rw [hsetp]
      have hL' : hi <<< 8 ||| lo = (p.set j b').length := by
        rw [List.length_set]
        exact hL
      have hshape : START1 :: START2 :: id :: hi :: lo :: (p.set j b' ++ [chk]) ++ rest =
          START1 :: START2 :: id :: hi :: lo :: (p.set j b' ++ chk :: rest) := by simp
      rw [hshape, tryExtract_frame _ _ _ _ _ _ hL']
      rw [if_pos ?_]
      have heq : id :: hi :: lo :: p.set j b' = (id :: hi :: lo :: p).set (j + 3) b' := rfl
      have hne : calcChecksum ((id :: hi :: lo :: p).set (j + 3) b') ≠
          calcChecksum (id :: hi :: lo :: p) := by
        apply calcChecksum_set_ne _ (j + 3) (by simp; omega) b'
        have hgd3 : (id :: hi :: lo :: p).getD (j + 3) 0 = p.getD j 0 := rfl
        rw [hgd3]
        exact hb
      rw [heq]
      exact fun hcontra => hne hcontra.symm
    · -- checksum byte flip
      have hjp2 : j = p.length := by omega
      subst hjp2
      have hsetc : (p ++ [chk]).set p.length b' = p ++ [b'] := by
        rw [List.set_append_right _ _ (le_refl p.length)]
        simp
      have hgdc : (p ++ [chk]).getD p.length 0 = chk := by
        rw [List.getD_append_right p [chk] 0 p.length (le_refl p.length)]
        simp
      rw [hgdc] at hb
      rw [hsetc]
      have hshape : START1 :: START2 :: id :: hi :: lo :: (p ++ [b']) ++ rest =
          START1 :: START2 :: id :: hi :: lo :: (p ++ b' :: rest) := by simp
      rw [hshape, tryExtract_frame _ _ _ _ _ _ hL]
      rw [if_pos ?_]
      intro hcontra
      subst hcontra
      exact hb (by rw [Nat.mod_eq_of_lt (calcChecksum_lt _)])

/-- The while-loop of PicoLowLevelLink.poll_cmd: repeatedly extract frames,
collecting the (msg_id, payload) pairs handed to the command handlers, until
the extractor returns none. Fuel bounds the recursion; buf.length + 1 steps
always suffice since every successful extraction consumes at least six
bytes. -/
def pollRun : ℕ → List ℕ → List (ℕ × List ℕ) × List ℕ
  | 0, buf => ([], buf)
  | fuel + 1, buf =>
      match tryExtract buf with
      | (none, buf1) => ([], buf1)
      | (some r, buf1) =>
          let res := pollRun fuel buf1
          (r :: res.1, res.2)

/-- One poll_cmd call on a buffer with no new UART bytes. -/
def pollCmd (buf : List ℕ) : List (ℕ × List ℕ) × List ℕ :=
  pollRun (buf.length + 1) buf

end PicoLink


/-- C5: for every message id and payload shorter than 65536 bytes, feeding
exactly the bytes of _build_packet(msg_id, payload) to _try_extract_packet
returns the same message id and the same payload bytes and consumes the
whole buffer; byte-identical payloads decode to identical IEEE-754 float32
values, so the velocity command (1.23, -0.45) round-trips exactly (the
witness runs this frame through the codec using its real float32 bytes
3F 9D 70 A4 BE E6 66 66). -/
theorem frame_round_trip (msg_id : ℕ) (payload : List ℕ)
    (h : payload.length < 65536) :
    PicoLink.tryExtract (PicoLink.buildPacket msg_id payload) =
      (some (msg_id, payload), []) := by
  have := PicoLink.tryExtract_buildPacket msg_id payload [] h
  simpa using this

/-- Witness for frame_round_trip: the MSG_ID_VELOCITY_CMD frame carrying the
big-endian IEEE-754 float32 bytes of (1.23, -0.45). -/
theorem frame_round_trip_witness :
    PicoLink.tryExtract
        (PicoLink.buildPacket 1 [0x3F, 0x9D, 0x70, 0xA4, 0xBE, 0xE6, 0x66, 0x66]) =
      (some (1, [0x3F, 0x9D, 0x70, 0xA4, 0xBE, 0xE6, 0x66, 0x66]), []) :=
  frame_round_trip 1 [0x3F, 0x9D, 0x70, 0xA4, 0xBE, 0xE6, 0x66, 0x66] (by norm_num)

/-- C4 counterexample: flipping a single byte of a valid frame can destroy
the following valid frame. With frame1 = build(1, []) and frame2 =
build(2, []), flipping frame1's LEN_LO byte (index 4) from 0 to 6 makes the
decoder read a 6-byte payload length, swallow frame2 inside the corrupted
frame, fail the checksum and discard everything: poll_cmd delivers nothing
and the buffer is empty, even though frame2 alone decodes fine. -/
theorem frame_length_flip_loses_next_frame :
    PicoLink.tryExtract ((PicoLink.buildPacket 1 []).set 4 6 ++ PicoLink.buildPacket 2 []) =
      (none, []) ∧
    PicoLink.pollCmd ((PicoLink.buildPacket 1 []).set 4 6 ++ PicoLink.buildPacket 2 []) =
      ([], []) ∧
    PicoLink.tryExtract (PicoLink.buildPacket 2 []) = (some (2, []), []) := by
  refine ⟨by decide, by decide, by decide⟩

/-- C4 (amended): on a checksum mismatch the decoder discards the entire
corrupted frame (not a single byte) and rescans from the byte after it, so
flipping any single byte of the message id, payload or checksum region
(i.e. not the start or length bytes) of a valid frame makes exactly that
frame be dropped while the following valid frame stays intact in the buffer
and is decoded by the next extraction call; a frame with corrupted bytes is
never delivered. Flipping a length byte (see the counterexample) or a start
byte can instead consume or misparse the following bytes. -/
theorem frame_flip_rejected_resync (id : ℕ) (p : List ℕ) (i b' id2 : ℕ)
    (p2 rest : List ℕ) (hlen : p.length < 65536)
    (hpos : i = 2 ∨ (5 ≤ i ∧ i < 6 + p.length))
    (hb : b' % 256 ≠ (PicoLink.buildPacket id p).getD i 0 % 256)
    (hlen2 : p2.length < 65536) :
    PicoLink.tryExtract ((PicoLink.buildPacket id p).set i b' ++
        (PicoLink.buildPacket id2 p2 ++ rest)) =
      (none, PicoLink.buildPacket id2 p2 ++ rest) ∧
    PicoLink.tryExtract (PicoLink.buildPacket id2 p2 ++ rest) =
      (some (id2, p2), rest) :=
  ⟨PicoLink.tryExtract_flip id p _ i b' hlen hpos hb,
   PicoLink.tryExtract_buildPacket id2 p2 rest hlen2⟩

/-- Witness for frame_flip_rejected_resync: flipping payload byte 0 (index 5)
of build(1, [10, 20]) to 99 drops that frame and leaves build(2, [7])
decodable. -/
theorem frame_flip_rejected_resync_witness :
    PicoLink.tryExtract ((PicoLink.buildPacket 1 [10, 20]).set 5 99 ++
        (PicoLink.buildPacket 2 [7] ++ [])) =
      (none, PicoLink.buildPacket 2 [7] ++ []) ∧
    PicoLink.tryExtract (PicoLink.buildPacket 2 [7] ++ []) =
      (some (2, [7]), []) :=
  frame_flip_rejected_resync 1 [10, 20] 5 99 2 [7] [] (by norm_num)
    (Or.inr (by norm_num)) (by decide) (by norm_num)
